import Mathlib

/-!
Verification of the policy-statement evaluator of
`checkov/cloudformation/checks/resource/aws/ECRPolicy.py` (check CKV_AWS_32,
"Ensure ECR policy is not set to public").

The Python code is shallowly embedded: JSON-like configuration values become
the inductive type `JValue`; the dynamic (duck-typed) operations the code
performs on them (`x.keys()`, `x[k]`, `k in x`, `enumerate(x)`, truthiness)
become total Lean functions returning `Except PyError _` where the Python
operation can raise.  `json.loads` (Python standard library, external to the
repository) is modelled by an executable recursive-descent JSON reader
`json_loads`; numeric literals are modelled as integers.  The regular
expression `SLS_DEFAULT_VAR_PATTERN` only selects between an info-level and an
error-level log line inside the `JSONDecodeError` handler; it has no influence
on the returned verdict or evaluated keys, so logging is not modelled.
-/

namespace ECRPolicyModel

/-- JSON-like values: the shapes a CloudFormation resource configuration can
contain (Python `None`, `bool`, numbers, `str`, `list`, `dict`). -/
inductive JValue where
  | null
  | bool (b : Bool)
  | num  (n : Int)
  | str  (s : String)
  | arr  (xs : List JValue)
  | obj  (fields : List (String × JValue))

/-- Exceptions the embedded Python fragments can raise. -/
inductive PyError where
  | attributeError
  | typeError
  | keyError
deriving DecidableEq, Repr

/-- Result enum of a check, from `checkov.common.models.enums.CheckResult`. -/
inductive CheckResult where
  | PASSED
  | FAILED
  | UNKNOWN
  | SKIPPED
deriving DecidableEq, Repr

/-- Lookup in a Python `dict` with string keys (keys are unique; the model
keeps them unique via `setKey` below). -/
def lookup (fields : List (String × JValue)) (k : String) : Option JValue :=
  match fields with
  | [] => none
  | (k₁, v) :: rest => if k₁ = k then some v else lookup rest k

/-- Python truthiness: `not x` is true exactly on these values. -/
def falsy : JValue → Bool
  | .null => true
  | .bool b => !b
  | .num n => n == 0
  | .str s => s == ""
  | .arr xs => xs.isEmpty
  | .obj fs => fs.isEmpty

/-- Whether a JSON value is a Python `list`. -/
def isArrVal : JValue → Bool
  | .arr _ => true
  | _ => false

/-- Python equality of a value against a string literal (`v == "*"` etc.). -/
def jstrEq (lit : String) : JValue → Bool
  | .str s => s == lit
  | _ => false

/-- Test whether the character list `n` starts the character list `h`. -/
def leadsChars : List Char → List Char → Bool
  | [], _ => true
  | _ :: _, [] => false
  | a :: as, b :: bs => a == b && leadsChars as bs

/-- Test whether the character list `n` occurs contiguously inside `h`
(Python substring membership `n in h` for strings). -/
def occursChars (n : List Char) : List Char → Bool
  | [] => leadsChars n []
  | c :: rest => leadsChars n (c :: rest) || occursChars n rest

/-- Python membership `needle in v` for a string needle: key membership for a
dict, element equality for a list, substring test for a string, `TypeError`
otherwise. -/
def pyContains (needle : String) : JValue → Except PyError Bool
  | .obj fs => .ok (lookup fs needle).isSome
  | .arr xs => .ok (xs.any (jstrEq needle))
  | .str s => .ok (occursChars needle.toList s.toList)
  | _ => .error .typeError

/-- Python indexing `v[k]` with a string key: dict lookup (raising `KeyError`
when absent), `TypeError` on every other value. -/
def pyIndexStr (v : JValue) (k : String) : Except PyError JValue :=
  match v with
  | .obj fs =>
    match lookup fs k with
    | some x => .ok x
    | none => .error .keyError
  | _ => .error .typeError

/-- Python iteration `enumerate(v)`: a string yields its characters (each a
one-character string), a list its elements, a dict its keys; every other
value raises `TypeError`. -/
def pyIter : JValue → Except PyError (List JValue)
  | .str s => .ok (s.toList.map fun c => .str (String.singleton c))
  | .arr xs => .ok xs
  | .obj fs => .ok (fs.map fun p => .str p.1)
  | _ => .error .typeError

/-- The comparison `principal == "*"` performed by the scan loop. -/
def isStar : JValue → Bool
  | .str s => s == "*"
  | _ => false

/-! ### Model of `json.loads` (Python standard library, external to the
repository).  A recursive-descent reader over the character list, with fuel
for the mutual value/object/array recursion; numeric literals are modelled as
integers, strings support the common escape sequences.  Duplicate object keys
keep the first position and the last value, as in Python. -/

/-- Whitespace characters skipped by the JSON reader. -/
def isWsChar (c : Char) : Bool :=
  c == ' ' || c == '\t' || c == '\n' || c == '\r'

/-- Skip leading whitespace. -/
def skipWs : List Char → List Char
  | [] => []
  | c :: rest => if isWsChar c then skipWs rest else c :: rest

/-- Decimal digit test. -/
def isDigitChar (c : Char) : Bool := '0' ≤ c && c ≤ '9'

/-- Consume a run of digits, accumulating their value. -/
def digitsAcc (acc : Nat) : List Char → Nat × List Char
  | [] => (acc, [])
  | c :: rest =>
    if isDigitChar c then digitsAcc (acc * 10 + (c.toNat - '0'.toNat)) rest
    else (acc, c :: rest)

/-- Parse at least one digit. -/
def readDigits : List Char → Option (Nat × List Char)
  | [] => none
  | c :: rest =>
    if isDigitChar c then some (digitsAcc (c.toNat - '0'.toNat) rest)
    else none

/-- Value of a hexadecimal digit, by code-point arithmetic: `0`-`9` are code
points 48-57, `A`-`F` are 65-70, `a`-`f` are 97-102. -/
def hexDigit (c : Char) : Option Nat :=
  let n := c.toNat
  if 48 ≤ n && n ≤ 57 then some (n - 48)
  else if 97 ≤ n && n ≤ 102 then some (n - 87)
  else if 65 ≤ n && n ≤ 70 then some (n - 55)
  else none

/-- Single-character escape sequences of JSON strings. -/
def escMap (c : Char) : Option Char :=
  if c = '"' then some '"'
  else if c = '\\' then some '\\'
  else if c = '/' then some '/'
  else if c = 'n' then some '\n'
  else if c = 't' then some '\t'
  else if c = 'r' then some '\r'
  else if c = 'b' then some (Char.ofNat 8)
  else if c = 'f' then some (Char.ofNat 12)
  else none

/-- Read the body of a JSON string after the opening quote, returning the
content and the remainder after the closing quote. -/
def readStringBody : List Char → Option (List Char × List Char)
  | [] => none
  | '"' :: rest => some ([], rest)
  | '\\' :: 'u' :: h₁ :: h₂ :: h₃ :: h₄ :: rest =>
    match hexDigit h₁, hexDigit h₂, hexDigit h₃, hexDigit h₄ with
    | some d₁, some d₂, some d₃, some d₄ =>
      match readStringBody rest with
      | some (cs, r) =>
        some (Char.ofNat (((d₁ * 16 + d₂) * 16 + d₃) * 16 + d₄) :: cs, r)
      | none => none
    | _, _, _, _ => none
  | '\\' :: e :: rest =>
    match escMap e with
    | some c =>
      match readStringBody rest with
      | some (cs, r) => some (c :: cs, r)
      | none => none
    | none => none
  | c :: rest =>
    match readStringBody rest with
    | some (cs, r) => some (c :: cs, r)
    | none => none

/-- Insert a key into an object under construction, Python-dict style:
an existing key keeps its position and receives the new value. -/
def setKey (fs : List (String × JValue)) (k : String) (v : JValue) :
    List (String × JValue) :=
  match fs with
  | [] => [(k, v)]
  | (k₁, v₁) :: rest =>
    if k₁ = k then (k₁, v) :: rest else (k₁, v₁) :: setKey rest k v

mutual

/-- Parse one JSON value (fuel-bounded mutual recursion). -/
def parseValue : Nat → List Char → Option (JValue × List Char)
  | 0, _ => none
  | fuel + 1, cs =>
    match skipWs cs with
    | [] => none
    | '{' :: rest =>
      (match skipWs rest with
       | '}' :: r => some (.obj [], r)
       | r => parseMembers fuel r [])
    | '[' :: rest =>
      (match skipWs rest with
       | ']' :: r => some (.arr [], r)
       | r => parseElements fuel r [])
    | '"' :: rest =>
      (match readStringBody rest with
       | some (cs₁, r) => some (.str (String.mk cs₁), r)
       | none => none)
    | 't' :: 'r' :: 'u' :: 'e' :: r => some (.bool true, r)
    | 'f' :: 'a' :: 'l' :: 's' :: 'e' :: r => some (.bool false, r)
    | 'n' :: 'u' :: 'l' :: 'l' :: r => some (.null, r)
    | '-' :: r =>
      (match readDigits r with
       | some (n, r₁) => some (.num (-(n : Int)), r₁)
       | none => none)
    | cs₁ =>
      (match readDigits cs₁ with
       | some (n, r₁) => some (.num (n : Int), r₁)
       | none => none)

/-- Parse the members of a JSON object after the opening brace (at least one
member present). -/
def parseMembers : Nat → List Char → List (String × JValue) →
    Option (JValue × List Char)
  | 0, _, _ => none
  | fuel + 1, cs, acc =>
    match skipWs cs with
    | '"' :: rest =>
      (match readStringBody rest with
       | some (kcs, r₁) =>
         (match skipWs r₁ with
          | ':' :: r₂ =>
            (match parseValue fuel r₂ with
             | some (v, r₃) =>
               (match skipWs r₃ with
                | ',' :: r₄ => parseMembers fuel r₄ (setKey acc (String.mk kcs) v)
                | '}' :: r₄ => some (.obj (setKey acc (String.mk kcs) v), r₄)
                | _ => none)
             | none => none)
          | _ => none)
       | none => none)
    | _ => none

/-- Parse the elements of a JSON array after the opening bracket (at least
one element present). -/
def parseElements : Nat → List Char → List JValue → Option (JValue × List Char)
  | 0, _, _ => none
  | fuel + 1, cs, acc =>
    match parseValue fuel cs with
    | some (v, r₁) =>
      (match skipWs r₁ with
       | ',' :: r₂ => parseElements fuel r₂ (acc ++ [v])
       | ']' :: r₂ => some (.arr (acc ++ [v]), r₂)
       | _ => none)
    | none => none

end

/-- Model of `json.loads`: parse a complete JSON document, requiring the whole
input (up to trailing whitespace) to be consumed; `none` models
`json.decoder.JSONDecodeError`. -/
def json_loads (s : String) : Option JValue :=
  let cs := s.toList
  match parseValue (cs.length + 1) cs with
  | some (v, rest) => if (skipWs rest).isEmpty then some v else none
  | none => none

/-! ### The evaluator, mirroring `ECRPolicy.scan_resource_conf` and
`ECRPolicy.check_for_constrained_condition`. -/

/-- The `string_equals = ...` if/elif chain of
`check_for_constrained_condition`: the value of the first key present among
`StringEquals`, `ForAllValues:StringEquals`, `ForAnyValue:StringEquals`
(Python membership plus indexing, each of which can raise on non-dict
condition values). -/
def firstStringEquals (condition : JValue) : Except PyError (Option JValue) :=
  match pyContains "StringEquals" condition with
  | .error e => .error e
  | .ok true => (pyIndexStr condition "StringEquals").map some
  | .ok false =>
    match pyContains "ForAllValues:StringEquals" condition with
    | .error e => .error e
    | .ok true => (pyIndexStr condition "ForAllValues:StringEquals").map some
    | .ok false =>
      match pyContains "ForAnyValue:StringEquals" condition with
      | .error e => .error e
      | .ok true => (pyIndexStr condition "ForAnyValue:StringEquals").map some
      | .ok false => .ok none

/-- Embedding of `ECRPolicy.check_for_constrained_condition(statement)`.  The
statement argument is the field list of the statement dict (the caller has
already evaluated `statement.keys()`, so the statement is a dict there). -/
def check_for_constrained_condition (statement : List (String × JValue)) :
    Except PyError Bool :=
  match lookup statement "Condition" with
  | none => .ok false
  | some condition =>
    match firstStringEquals condition with
    | .error e => .error e
    | .ok string_equals =>
      .ok (match string_equals with
           | some (.obj fs) => (lookup fs "aws:PrincipalOrgID").isSome
           | _ => false)

/-- The `principal_block` after the `isinstance(principal_block, dict) and
'AWS' in principal_block` narrowing step. -/
def principalBlockOf (principal : JValue) : JValue :=
  match principal with
  | .obj pf =>
    match lookup pf "AWS" with
    | some v => v
    | none => principal
  | _ => principal

/-- Whether the `Principal` value is a dict containing the key `AWS` (the
condition under which the evaluated key gains the suffix `/AWS`). -/
def hasAWSKey (principal : JValue) : Bool :=
  match principal with
  | .obj pf => (lookup pf "AWS").isSome
  | _ => false

/-- The inner `for principal_index, principal in enumerate(principal_block)`
loop: on the first principal equal to `"*"` in a statement without a
constraining condition, the violation key (a one-element list) is produced;
`is_list` records `isinstance(principal_block, list)`. -/
def scanPrincipals (sfields : List (String × JValue)) (is_list : Bool)
    (evaluated_key : String) :
    List JValue → Nat → Except PyError (Option (List String))
  | [], _ => .ok none
  | principal :: rest, j =>
    if isStar principal then
      match check_for_constrained_condition sfields with
      | .error e => .error e
      | .ok true => scanPrincipals sfields is_list evaluated_key rest (j + 1)
      | .ok false =>
        .ok (some [if is_list then
                     evaluated_key ++ "/[" ++ toString j ++ "]/"
                   else evaluated_key])
    else scanPrincipals sfields is_list evaluated_key rest (j + 1)

/-- The evaluated-key stem for statement `i`. -/
def baseKey (i : Nat) : String :=
  "Properties/RepositoryPolicyText/Statement/[" ++ toString i ++ "]/Principal"

/-- Processing of one statement of the `Statement` list: `statement.keys()`
raises `AttributeError` on a non-dict statement; a statement without a
`Principal` key is skipped; otherwise the principal block is scanned.
Returns `some keys` when this statement triggers the FAILED verdict. -/
def processStatement (statement : JValue) (statement_index : Nat) :
    Except PyError (Option (List String)) :=
  match statement with
  | .obj sfields =>
    match lookup sfields "Principal" with
    | none => .ok none
    | some principal₀ =>
      let principal_block := principalBlockOf principal₀
      let evaluated_key :=
        if hasAWSKey principal₀ then baseKey statement_index ++ "/AWS"
        else baseKey statement_index
      match pyIter principal_block with
      | .error e => .error e
      | .ok entries =>
        scanPrincipals sfields (isArrVal principal_block) evaluated_key entries 0
  | _ => .error .attributeError

/-- The outer `for statement_index, statement in enumerate(...)` loop:
statements are processed in order, stopping at the first violation. -/
def scanStatements : List JValue → Nat → Except PyError (Option (List String))
  | [], _ => .ok none
  | st :: rest, i =>
    match processStatement st i with
    | .error e => .error e
    | .ok (some ks) => .ok (some ks)
    | .ok none => scanStatements rest (i + 1)

/-- The default evaluated keys assigned at the top of `scan_resource_conf`. -/
def default_evaluated_keys : List String :=
  ["Properties/RepositoryPolicyText/Statement"]

/-- The `if "Statement" in policy_text.keys() and isinstance(...)` part of the
scan, applied to the working (structured) policy document; `policy_text.keys()`
raises `AttributeError` when the working document is not a dict. -/
def scanDocument (evaluated_keys : List String) (policy_text : JValue) :
    Except PyError (List String × CheckResult) :=
  match policy_text with
  | .obj dfields =>
    match lookup dfields "Statement" with
    | some (.arr statements) =>
      (match scanStatements statements 0 with
       | .error e => .error e
       | .ok (some ks) => .ok (ks, .FAILED)
       | .ok none => .ok (evaluated_keys, .PASSED))
    | _ => .ok (evaluated_keys, .PASSED)
  | _ => .error .attributeError

/-- Embedding of `ECRPolicy.scan_resource_conf(conf)`.  The first argument is
the value of `self.evaluated_keys` before the call (the method assigns the
default over it immediately); the result pairs the final `self.evaluated_keys`
with the returned `CheckResult`, and `Except.error` models an uncaught Python
exception. -/
def scan_resource_conf (self_evaluated_keys : List String)
    (conf : List (String × JValue)) :
    Except PyError (List String × CheckResult) :=
  let evaluated_keys := default_evaluated_keys
  match lookup conf "Properties" with
  | none => .ok (evaluated_keys, .PASSED)
  | some properties =>
    if falsy properties then .ok (evaluated_keys, .PASSED)
    else
      match properties with
      | .obj pfields =>
        (match lookup pfields "RepositoryPolicyText" with
         | none => .ok (evaluated_keys, .PASSED)
         | some policy_text =>
           if falsy policy_text then .ok (evaluated_keys, .PASSED)
           else
             match policy_text with
             | .str s =>
               (match json_loads s with
                | none => .ok (evaluated_keys, .UNKNOWN)
                | some parsed => scanDocument evaluated_keys parsed)
             | _ => scanDocument evaluated_keys policy_text)
      | _ => .ok (evaluated_keys, .PASSED)

end ECRPolicyModel

namespace ECRPolicyModel

/-! ### Derived predicates used to state the claims. -/

/-- The working policy document: the structured value the statement scan runs
on, when the evaluator reaches that point (`none` on every early-`PASSED`
path and on the string-parse-failure `UNKNOWN` path). -/
def workingDocument (conf : List (String × JValue)) : Option JValue :=
  match lookup conf "Properties" with
  | none => none
  | some properties =>
    if falsy properties then none
    else
      match properties with
      | .obj pfields =>
        (match lookup pfields "RepositoryPolicyText" with
         | none => none
         | some policy_text =>
           if falsy policy_text then none
           else
             match policy_text with
             | .str s => json_loads s
             | _ => some policy_text)
      | _ => none

/-- The statement lacks a qualifying condition:
`check_for_constrained_condition` returns `False` (not an exception). -/
def notConstrained (sfields : List (String × JValue)) : Bool :=
  match check_for_constrained_condition sfields with
  | .ok false => true
  | _ => false

/-- A statement contains a wildcard violation: some iterated principal entry
(characters of a bare string, elements of a list, keys of a dict) equals the
literal string `"*"` while the statement lacks a qualifying condition. -/
def statementViolates (st : JValue) : Bool :=
  match st with
  | .obj sfields =>
    (match lookup sfields "Principal" with
     | none => false
     | some principal =>
       match pyIter (principalBlockOf principal) with
       | .ok entries => entries.any isStar && notConstrained sfields
       | .error _ => false)
  | _ => false

/-- A policy document contains a statement with a wildcard violation. -/
def docViolation : JValue → Bool
  | .obj dfields =>
    (match lookup dfields "Statement" with
     | some (.arr statements) => statements.any statementViolates
     | _ => false)
  | _ => false

/-- The configuration reaches the statement scan and contains a statement
with a wildcard violation. -/
def violationExists (conf : List (String × JValue)) : Bool :=
  match workingDocument conf with
  | some doc => docViolation doc
  | none => false

/-- Index of the first entry satisfying `p`. -/
def firstIdx (p : JValue → Bool) : List JValue → Option Nat
  | [] => none
  | x :: xs =>
    if p x then some 0 else
      match firstIdx p xs with
      | some j => some (j + 1)
      | none => none

/-- The statements `pre` preceding some point of the scan are all safe:
each is processed without a violation and without an exception. -/
def allSafeFrom : Nat → List JValue → Bool
  | _, [] => true
  | i, st :: rest =>
    (match processStatement st i with
     | .ok none => true
     | _ => false) && allSafeFrom (i + 1) rest

/-- A configuration holding exactly the given statement list (used to state
the scan-order claims). -/
def mkStatementsConf (statements : List JValue) : List (String × JValue) :=
  [("Properties", .obj [("RepositoryPolicyText",
      .obj [("Statement", .arr statements)])])]

/-- A configuration whose `Properties.RepositoryPolicyText` is the given
value. -/
def confWithPolicy (policy_text : JValue) : List (String × JValue) :=
  [("Properties", .obj [("RepositoryPolicyText", policy_text)])]

/-- A configuration with a single statement whose `Principal` is a bare
string. -/
def bareStringConf (s : String) : List (String × JValue) :=
  mkStatementsConf [.obj [("Principal", .str s)]]

/-! ### Spec-side definitions (for refinement comparison only; these follow
the words of the specification, not the code). -/

/-- Modelled from the spec (section 4, step 5e wording): the value of the
first key present among `StringEquals`, `ForAllValues:StringEquals`,
`ForAnyValue:StringEquals`, checked in that precedence order. -/
def specFirstPresent (cfields : List (String × JValue)) : Option JValue :=
  match lookup cfields "StringEquals" with
  | some v => some v
  | none =>
    match lookup cfields "ForAllValues:StringEquals" with
    | some v => some v
    | none => lookup cfields "ForAnyValue:StringEquals"

/-- Modelled from the spec (claim C3 wording): the statement has a
`Condition` mapping and the value of the first key present among the three
recognized operators is itself a mapping containing `aws:PrincipalOrgID`. -/
def spec_constrained_condition (sfields : List (String × JValue)) : Bool :=
  match lookup sfields "Condition" with
  | some (.obj cfields) =>
    (match specFirstPresent cfields with
     | some (.obj sefields) => (lookup sefields "aws:PrincipalOrgID").isSome
     | _ => false)
  | _ => false

/-- Modelled from the spec (section 4, step 5c): the principal entries of a
principal block, a bare string being a one-element sequence. -/
def spec_principal_entries : JValue → List JValue
  | .str s => [.str s]
  | .arr xs => xs
  | _ => []

/-- Modelled from the spec (claim C1 wording): the statement has a principal
entry equal to the literal string `"*"` while lacking a qualifying
`aws:PrincipalOrgID` condition. -/
def spec_statement_wildcard_violation (st : JValue) : Bool :=
  match st with
  | .obj sfields =>
    (match lookup sfields "Principal" with
     | some principal =>
       (spec_principal_entries (principalBlockOf principal)).any isStar &&
       !(spec_constrained_condition sfields)
     | none => false)
  | _ => false

/-! ### Shape predicates describing the configurations on which the dynamic
Python code cannot raise (used for the amended totality claim). -/

/-- The `Condition` value (if any) has a shape on which the membership tests
and lookups of `check_for_constrained_condition` cannot raise. -/
def conditionShapeOk (sfields : List (String × JValue)) : Bool :=
  match lookup sfields "Condition" with
  | none => true
  | some (.obj _) => true
  | some (.str s) =>
    !(occursChars "StringEquals".toList s.toList) &&
    !(occursChars "ForAllValues:StringEquals".toList s.toList) &&
    !(occursChars "ForAnyValue:StringEquals".toList s.toList)
  | some (.arr xs) =>
    !(xs.any (jstrEq "StringEquals")) &&
    !(xs.any (jstrEq "ForAllValues:StringEquals")) &&
    !(xs.any (jstrEq "ForAnyValue:StringEquals"))
  | some _ => false

/-- A statement is a dict, its principal block is iterable, and whenever a
wildcard entry makes the code consult the condition, the condition shape is
safe. -/
def statementShapeOk (st : JValue) : Bool :=
  match st with
  | .obj sfields =>
    (match lookup sfields "Principal" with
     | none => true
     | some principal =>
       match pyIter (principalBlockOf principal) with
       | .error _ => false
       | .ok entries => !(entries.any isStar) || conditionShapeOk sfields)
  | _ => false

/-- The configuration is well shaped: if the scan reaches a working policy
document, that document is a dict and all of its statements are well
shaped. -/
def wellShaped (conf : List (String × JValue)) : Bool :=
  match workingDocument conf with
  | none => true
  | some (.obj dfields) =>
    (match lookup dfields "Statement" with
     | some (.arr statements) => statements.all statementShapeOk
     | _ => true)
  | some _ => false

/-- The precondition of claim C7, amended: `Properties` absent or not a
mapping, or `RepositoryPolicyText` absent or empty (Python-falsy), or the
working policy document is a mapping with no `Statement` key or with a
`Statement` value that is not a list. -/
def trivialPassShape (conf : List (String × JValue)) : Bool :=
  match lookup conf "Properties" with
  | none => true
  | some (.obj pfields) =>
    (match lookup pfields "RepositoryPolicyText" with
     | none => true
     | some policy_text =>
       falsy policy_text ||
       (match (match policy_text with
               | .str s => json_loads s
               | _ => some policy_text) with
        | some (.obj dfields) =>
          (match lookup dfields "Statement" with
           | some (.arr _) => false
           | _ => true)
        | _ => false))
  | some _ => true

end ECRPolicyModel

namespace ECRPolicyModel

/-! ### Basic lemmas. -/

theorem lookup_some_not_isEmpty {fs : List (String × JValue)} {k : String}
    {v : JValue} (h : lookup fs k = some v) : fs.isEmpty = false := by
  cases fs with
  | nil => simp [lookup] at h
  | cons a rest => rfl

theorem singleton_beq_star (c : Char) :
    (String.singleton c == "*") = (c == '*') := by
  by_cases h : c = '*'
  · subst h; rfl
  · have h1 : String.singleton c ≠ "*" := by
      intro he
      apply h
      have hd : [c] = ['*'] := congrArg String.data he
      simpa using hd
    rw [beq_eq_false_iff_ne.mpr h1, beq_eq_false_iff_ne.mpr h]

theorem firstIdx_eq_none_iff (p : JValue → Bool) (l : List JValue) :
    firstIdx p l = none ↔ l.any p = false := by
  induction l with
  | nil => simp [firstIdx]
  | cons x xs ih =>
    cases h : p x with
    | true => simp [firstIdx, h]
    | false =>
      cases hrest : firstIdx p xs with
      | none =>
        simp only [firstIdx, h, Bool.false_eq_true, if_false, hrest,
          List.any_cons, Bool.or_eq_false_iff]
        simp [h, ih.mp hrest]
      | some j =>
        have hany : xs.any p = true := by
          cases hh : xs.any p
          · exact absurd (ih.mpr hh) (by simp [hrest])
          · rfl
        simp only [firstIdx, h, Bool.false_eq_true, if_false, hrest,
          List.any_cons]
        simp [h, hany]

theorem any_true_exists_firstIdx {p : JValue → Bool} {l : List JValue}
    (h : l.any p = true) : ∃ j, firstIdx p l = some j := by
  cases hj : firstIdx p l with
  | none => rw [(firstIdx_eq_none_iff p l).mp hj] at h; exact absurd h (by simp)
  | some j => exact ⟨j, rfl⟩

/-! ### Characterization of the inner principal-scan loop. -/

theorem scanPrincipals_no_star (sfields : List (String × JValue))
    (is_list : Bool) (key : String) (entries : List JValue) (j : Nat)
    (h : entries.any isStar = false) :
    scanPrincipals sfields is_list key entries j = .ok none := by
  induction entries generalizing j with
  | nil => rfl
  | cons e rest ih =>
    simp only [List.any_cons, Bool.or_eq_false_iff] at h
    simp [scanPrincipals, h.1, ih _ h.2]

theorem scanPrincipals_constrained (sfields : List (String × JValue))
    (is_list : Bool) (key : String)
    (hc : check_for_constrained_condition sfields = .ok true) :
    ∀ (entries : List JValue) (j : Nat),
      scanPrincipals sfields is_list key entries j = .ok none := by
  intro entries
  induction entries with
  | nil => intro j; rfl
  | cons e rest ih =>
    intro j
    by_cases h : isStar e
    · simp [scanPrincipals, h, hc, ih (j + 1)]
    · simp [scanPrincipals, h, ih (j + 1)]

theorem scanPrincipals_star_err (sfields : List (String × JValue))
    (is_list : Bool) (key : String) {entries : List JValue} {j : Nat}
    {e : PyError}
    (hj : firstIdx isStar entries = some j)
    (hc : check_for_constrained_condition sfields = .error e) :
    ∀ j₀, scanPrincipals sfields is_list key entries j₀ = .error e := by
  induction entries generalizing j with
  | nil => simp [firstIdx] at hj
  | cons x rest ih =>
    intro j₀
    cases hx : isStar x with
    | true => simp [scanPrincipals, hx, hc]
    | false =>
      cases hrest : firstIdx isStar rest with
      | none => simp [firstIdx, hx, hrest] at hj
      | some j₁ =>
        simp [scanPrincipals, hx, ih hrest (j₀ + 1)]

theorem scanPrincipals_star_unconstrained (sfields : List (String × JValue))
    (is_list : Bool) (key : String) {entries : List JValue} {j : Nat}
    (hj : firstIdx isStar entries = some j)
    (hc : check_for_constrained_condition sfields = .ok false) :
    ∀ j₀, scanPrincipals sfields is_list key entries j₀ =
      .ok (some [if is_list then key ++ "/[" ++ toString (j₀ + j) ++ "]/"
                 else key]) := by
  induction entries generalizing j with
  | nil => simp [firstIdx] at hj
  | cons x rest ih =>
    intro j₀
    cases hx : isStar x with
    | true =>
      simp only [firstIdx, hx, if_true] at hj
      cases hj
      simp [scanPrincipals, hx, hc]
    | false =>
      cases hrest : firstIdx isStar rest with
      | none => simp [firstIdx, hx, hrest] at hj
      | some j₁ =>
        simp only [firstIdx, hx, hrest] at hj
        simp only [Bool.false_eq_true, if_false, Option.some.injEq] at hj
        subst hj
        rw [show j₀ + (j₁ + 1) = j₀ + 1 + j₁ by omega]
        simp [scanPrincipals, hx, ih hrest (j₀ + 1)]

end ECRPolicyModel

namespace ECRPolicyModel

/-! ### Characterization of statement processing. -/

theorem processStatement_ok_none {st : JValue} {i : Nat}
    (h : processStatement st i = .ok none) : statementViolates st = false := by
  cases st with
  | obj sfields =>
    cases hp : lookup sfields "Principal" with
    | none => simp [statementViolates, hp]
    | some principal =>
      cases hI : pyIter (principalBlockOf principal) with
      | error e => simp [processStatement, hp, hI] at h
      | ok entries =>
        simp only [processStatement, hp, hI] at h
        cases hA : entries.any isStar with
        | false => simp [statementViolates, hp, hI, hA]
        | true =>
          obtain ⟨j, hj⟩ := any_true_exists_firstIdx hA
          cases hc : check_for_constrained_condition sfields with
          | error e => rw [scanPrincipals_star_err sfields _ _ hj hc 0] at h; cases h
          | ok b =>
            cases b with
            | true => simp [statementViolates, hp, hI, notConstrained, hc]
            | false =>
              rw [scanPrincipals_star_unconstrained sfields _ _ hj hc 0] at h
              cases h
  | null => simp [processStatement] at h
  | bool b => simp [processStatement] at h
  | num n => simp [processStatement] at h
  | str s => simp [processStatement] at h
  | arr xs => simp [processStatement] at h

theorem processStatement_ok_some {st : JValue} {i : Nat} {ks : List String}
    (h : processStatement st i = .ok (some ks)) :
    statementViolates st = true := by
  cases st with
  | obj sfields =>
    cases hp : lookup sfields "Principal" with
    | none => simp [processStatement, hp] at h
    | some principal =>
      cases hI : pyIter (principalBlockOf principal) with
      | error e => simp [processStatement, hp, hI] at h
      | ok entries =>
        simp only [processStatement, hp, hI] at h
        cases hA : entries.any isStar with
        | false =>
          rw [scanPrincipals_no_star sfields _ _ entries 0 hA] at h
          cases h
        | true =>
          obtain ⟨j, hj⟩ := any_true_exists_firstIdx hA
          cases hc : check_for_constrained_condition sfields with
          | error e => rw [scanPrincipals_star_err sfields _ _ hj hc 0] at h; cases h
          | ok b =>
            cases b with
            | true => rw [scanPrincipals_constrained sfields _ _ hc entries 0] at h; cases h
            | false => simp [statementViolates, hp, hI, hA, notConstrained, hc]
  | null => simp [processStatement] at h
  | bool b => simp [processStatement] at h
  | num n => simp [processStatement] at h
  | str s => simp [processStatement] at h
  | arr xs => simp [processStatement] at h

theorem processStatement_some_shape {st : JValue} {i : Nat} {ks : List String}
    (h : processStatement st i = .ok (some ks)) :
    ∃ sfields principal entries j,
      st = .obj sfields ∧
      lookup sfields "Principal" = some principal ∧
      pyIter (principalBlockOf principal) = .ok entries ∧
      firstIdx isStar entries = some j ∧
      check_for_constrained_condition sfields = .ok false ∧
      ks = [(if hasAWSKey principal then baseKey i ++ "/AWS" else baseKey i) ++
            (if isArrVal (principalBlockOf principal) then
               "/[" ++ toString j ++ "]/" else "")] := by
  cases st with
  | obj sfields =>
    cases hp : lookup sfields "Principal" with
    | none => simp [processStatement, hp] at h
    | some principal =>
      cases hI : pyIter (principalBlockOf principal) with
      | error e => simp [processStatement, hp, hI] at h
      | ok entries =>
        simp only [processStatement, hp, hI] at h
        cases hj : firstIdx isStar entries with
        | none =>
          rw [scanPrincipals_no_star sfields _ _ entries 0
            ((firstIdx_eq_none_iff isStar entries).mp hj)] at h
          cases h
        | some j =>
          cases hc : check_for_constrained_condition sfields with
          | error e => rw [scanPrincipals_star_err sfields _ _ hj hc 0] at h; cases h
          | ok b =>
            cases b with
            | true => rw [scanPrincipals_constrained sfields _ _ hc entries 0] at h; cases h
            | false =>
              rw [scanPrincipals_star_unconstrained sfields _ _ hj hc 0] at h
              refine ⟨sfields, principal, entries, j, rfl, hp, hI, hj, hc, ?_⟩
              have hks : ks = [if isArrVal (principalBlockOf principal) then
                  (if hasAWSKey principal then baseKey i ++ "/AWS" else baseKey i) ++
                    "/[" ++ toString (0 + j) ++ "]/"
                else (if hasAWSKey principal then baseKey i ++ "/AWS" else baseKey i)] := by
                cases h; rfl
              rw [hks]
              cases hL : isArrVal (principalBlockOf principal)
              · simp [String.append_empty]
              · simp [Nat.zero_add, String.append_assoc]
  | null => simp [processStatement] at h
  | bool b => simp [processStatement] at h
  | num n => simp [processStatement] at h
  | str s => simp [processStatement] at h
  | arr xs => simp [processStatement] at h

end ECRPolicyModel

namespace ECRPolicyModel

/-! ### Characterization of the statement-list scan. -/

theorem scanStatements_ok_none {sts : List JValue} {i : Nat}
    (h : scanStatements sts i = .ok none) :
    sts.any statementViolates = false := by
  induction sts generalizing i with
  | nil => rfl
  | cons st rest ih =>
    cases hp : processStatement st i with
    | error e => simp [scanStatements, hp] at h
    | ok r =>
      cases r with
      | some ks => simp [scanStatements, hp] at h
      | none =>
        simp only [scanStatements, hp] at h
        simp [processStatement_ok_none hp, ih h]

theorem scanStatements_ok_some {sts : List JValue} {i : Nat} {ks : List String}
    (h : scanStatements sts i = .ok (some ks)) :
    sts.any statementViolates = true := by
  induction sts generalizing i with
  | nil => simp [scanStatements] at h
  | cons st rest ih =>
    cases hp : processStatement st i with
    | error e => simp [scanStatements, hp] at h
    | ok r =>
      cases r with
      | some ks₁ => simp [processStatement_ok_some hp]
      | none =>
        simp only [scanStatements, hp] at h
        simp [ih h]

theorem scanStatements_ok_some_exists {sts : List JValue} {i₀ : Nat}
    {ks : List String} (h : scanStatements sts i₀ = .ok (some ks)) :
    ∃ k st, sts.get? k = some st ∧ processStatement st (i₀ + k) = .ok (some ks) := by
  induction sts generalizing i₀ with
  | nil => simp [scanStatements] at h
  | cons st rest ih =>
    cases hp : processStatement st i₀ with
    | error e => simp [scanStatements, hp] at h
    | ok r =>
      cases r with
      | some ks₁ =>
        simp only [scanStatements, hp] at h
        cases h
        exact ⟨0, st, rfl, by simpa using hp⟩
      | none =>
        simp only [scanStatements, hp] at h
        obtain ⟨k, st₁, hg, hps⟩ := ih h
        exact ⟨k + 1, st₁, by simpa using hg,
          by rw [show i₀ + (k + 1) = i₀ + 1 + k by omega]; exact hps⟩

theorem scanStatements_append {pre tail : List JValue} {i₀ : Nat}
    (h : allSafeFrom i₀ pre = true) :
    scanStatements (pre ++ tail) i₀ = scanStatements tail (i₀ + pre.length) := by
  induction pre generalizing i₀ with
  | nil => simp
  | cons st rest ih =>
    cases hp : processStatement st i₀ with
    | error e => simp [allSafeFrom, hp] at h
    | ok r =>
      cases r with
      | some ks => simp [allSafeFrom, hp] at h
      | none =>
        simp only [allSafeFrom, hp, Bool.true_and] at h
        rw [List.cons_append]
        simp only [scanStatements, hp]
        rw [ih h, show i₀ + 1 + rest.length = i₀ + (rest.length + 1) by omega]
        rfl

/-! ### Characterization of the document scan and the top-level control
flow. -/

theorem scanDocument_ok {keys : List String} {doc : JValue}
    {ks : List String} {v : CheckResult}
    (h : scanDocument keys doc = .ok (ks, v)) :
    (v = .FAILED ↔ docViolation doc = true) ∧ (v = .PASSED ∨ v = .FAILED) := by
  cases doc with
  | obj dfields =>
    cases hS : lookup dfields "Statement" with
    | none =>
      simp only [scanDocument, hS] at h
      cases h
      simp [docViolation, hS]
    | some sv =>
      cases sv with
      | arr statements =>
        cases hs : scanStatements statements 0 with
        | error e => simp [scanDocument, hS, hs] at h
        | ok r =>
          cases r with
          | none =>
            simp only [scanDocument, hS, hs] at h
            cases h
            simp [docViolation, hS, scanStatements_ok_none hs]
          | some ks₁ =>
            simp only [scanDocument, hS, hs] at h
            cases h
            simp [docViolation, hS, scanStatements_ok_some hs]
      | null => simp only [scanDocument, hS] at h; cases h; simp [docViolation, hS]
      | bool b => simp only [scanDocument, hS] at h; cases h; simp [docViolation, hS]
      | num n => simp only [scanDocument, hS] at h; cases h; simp [docViolation, hS]
      | str s => simp only [scanDocument, hS] at h; cases h; simp [docViolation, hS]
      | obj fs => simp only [scanDocument, hS] at h; cases h; simp [docViolation, hS]
  | null => simp [scanDocument] at h
  | bool b => simp [scanDocument] at h
  | num n => simp [scanDocument] at h
  | str s => simp [scanDocument] at h
  | arr xs => simp [scanDocument] at h

theorem scanDocument_failed_shape {keys : List String} {doc : JValue}
    {ks : List String} (h : scanDocument keys doc = .ok (ks, .FAILED)) :
    ∃ dfields statements, doc = .obj dfields ∧
      lookup dfields "Statement" = some (.arr statements) ∧
      scanStatements statements 0 = .ok (some ks) := by
  cases doc with
  | obj dfields =>
    cases hS : lookup dfields "Statement" with
    | none => simp only [scanDocument, hS] at h; cases h
    | some sv =>
      cases sv with
      | arr statements =>
        cases hs : scanStatements statements 0 with
        | error e => simp [scanDocument, hS, hs] at h
        | ok r =>
          cases r with
          | none => simp only [scanDocument, hS, hs] at h; cases h
          | some ks₁ =>
            simp only [scanDocument, hS, hs] at h
            cases h
            exact ⟨dfields, statements, rfl, hS, hs⟩
      | null => simp only [scanDocument, hS] at h; cases h
      | bool b => simp only [scanDocument, hS] at h; cases h
      | num n => simp only [scanDocument, hS] at h; cases h
      | str s => simp only [scanDocument, hS] at h; cases h
      | obj fs => simp only [scanDocument, hS] at h; cases h
  | null => simp [scanDocument] at h
  | bool b => simp [scanDocument] at h
  | num n => simp [scanDocument] at h
  | str s => simp [scanDocument] at h
  | arr xs => simp [scanDocument] at h

theorem scanDocument_ne_unknown (keys : List String) (doc : JValue)
    (ks : List String) : scanDocument keys doc ≠ .ok (ks, .UNKNOWN) := by
  cases doc with
  | obj dfields =>
    cases hS : lookup dfields "Statement" with
    | none => simp [scanDocument, hS]
    | some sv =>
      cases sv with
      | arr statements =>
        cases hs : scanStatements statements 0 with
        | error e => simp [scanDocument, hS, hs]
        | ok r =>
          cases r with
          | none => simp [scanDocument, hS, hs]
          | some ks₁ => simp [scanDocument, hS, hs]
      | null => simp [scanDocument, hS]
      | bool b => simp [scanDocument, hS]
      | num n => simp [scanDocument, hS]
      | str s => simp [scanDocument, hS]
      | obj fs => simp [scanDocument, hS]
  | null => simp [scanDocument]
  | bool b => simp [scanDocument]
  | num n => simp [scanDocument]
  | str s => simp [scanDocument]
  | arr xs => simp [scanDocument]

theorem scan_split (keys₀ : List String) (conf : List (String × JValue)) :
    (workingDocument conf = none ∧
      (scan_resource_conf keys₀ conf = .ok (default_evaluated_keys, .PASSED) ∨
       scan_resource_conf keys₀ conf = .ok (default_evaluated_keys, .UNKNOWN))) ∨
    (∃ doc, workingDocument conf = some doc ∧
      scan_resource_conf keys₀ conf = scanDocument default_evaluated_keys doc) := by
  cases hP : lookup conf "Properties" with
  | none => exact Or.inl ⟨by simp [workingDocument, hP],
      Or.inl (by simp [scan_resource_conf, hP])⟩
  | some properties =>
    cases hf : falsy properties with
    | true => exact Or.inl ⟨by simp [workingDocument, hP, hf],
        Or.inl (by simp [scan_resource_conf, hP, hf])⟩
    | false =>
      cases properties with
      | obj pfields =>
        cases hR : lookup pfields "RepositoryPolicyText" with
        | none => exact Or.inl ⟨by simp [workingDocument, hP, hf, hR],
            Or.inl (by simp [scan_resource_conf, hP, hf, hR])⟩
        | some policy_text =>
          cases hft : falsy policy_text with
          | true => exact Or.inl ⟨by simp [workingDocument, hP, hf, hR, hft],
              Or.inl (by simp [scan_resource_conf, hP, hf, hR, hft])⟩
          | false =>
            cases policy_text with
            | str s =>
              cases hj : json_loads s with
              | none => exact Or.inl ⟨by simp [workingDocument, hP, hf, hR, hft, hj],
                  Or.inr (by simp [scan_resource_conf, hP, hf, hR, hft, hj])⟩
              | some parsed =>
                exact Or.inr ⟨parsed, by simp [workingDocument, hP, hf, hR, hft, hj],
                  by simp [scan_resource_conf, hP, hf, hR, hft, hj]⟩
            | null => exact Or.inr ⟨.null, by simp [workingDocument, hP, hf, hR, hft],
                by simp [scan_resource_conf, hP, hf, hR, hft]⟩
            | bool b => exact Or.inr ⟨.bool b, by simp [workingDocument, hP, hf, hR, hft],
                by simp [scan_resource_conf, hP, hf, hR, hft]⟩
            | num n => exact Or.inr ⟨.num n, by simp [workingDocument, hP, hf, hR, hft],
                by simp [scan_resource_conf, hP, hf, hR, hft]⟩
            | arr xs => exact Or.inr ⟨.arr xs, by simp [workingDocument, hP, hf, hR, hft],
                by simp [scan_resource_conf, hP, hf, hR, hft]⟩
            | obj dfields => exact Or.inr ⟨.obj dfields,
                by simp [workingDocument, hP, hf, hR, hft],
                by simp [scan_resource_conf, hP, hf, hR, hft]⟩
      | null => exact Or.inl ⟨by simp [workingDocument, hP, hf],
          Or.inl (by simp [scan_resource_conf, hP, hf])⟩
      | bool b => exact Or.inl ⟨by simp [workingDocument, hP, hf],
          Or.inl (by simp [scan_resource_conf, hP, hf])⟩
      | num n => exact Or.inl ⟨by simp [workingDocument, hP, hf],
          Or.inl (by simp [scan_resource_conf, hP, hf])⟩
      | str s => exact Or.inl ⟨by simp [workingDocument, hP, hf],
          Or.inl (by simp [scan_resource_conf, hP, hf])⟩
      | arr xs => exact Or.inl ⟨by simp [workingDocument, hP, hf],
          Or.inl (by simp [scan_resource_conf, hP, hf])⟩

end ECRPolicyModel

namespace ECRPolicyModel

/-! ### Analysis of the condition check. -/

theorem firstStringEquals_obj (cf : List (String × JValue)) :
    firstStringEquals (.obj cf) = .ok (specFirstPresent cf) := by
  cases h1 : lookup cf "StringEquals" with
  | some v =>
    simp [firstStringEquals, pyContains, pyIndexStr, specFirstPresent, h1, Except.map]
  | none =>
    cases h2 : lookup cf "ForAllValues:StringEquals" with
    | some v =>
      simp [firstStringEquals, pyContains, pyIndexStr, specFirstPresent, h1, h2,
        Except.map]
    | none =>
      cases h3 : lookup cf "ForAnyValue:StringEquals" with
      | some v =>
        simp [firstStringEquals, pyContains, pyIndexStr, specFirstPresent, h1, h2, h3,
          Except.map]
      | none =>
        simp [firstStringEquals, pyContains, pyIndexStr, specFirstPresent, h1, h2, h3]

theorem firstStringEquals_str (s : String) :
    firstStringEquals (.str s) = .error .typeError ∨
    firstStringEquals (.str s) = .ok none := by
  simp only [firstStringEquals, pyContains]
  cases h1 : occursChars "StringEquals".toList s.toList with
  | true => exact Or.inl rfl
  | false =>
    cases h2 : occursChars "ForAllValues:StringEquals".toList s.toList with
    | true => exact Or.inl rfl
    | false =>
      cases h3 : occursChars "ForAnyValue:StringEquals".toList s.toList with
      | true => exact Or.inl rfl
      | false => exact Or.inr rfl

theorem firstStringEquals_str_none {s : String}
    (h1 : occursChars "StringEquals".toList s.toList = false)
    (h2 : occursChars "ForAllValues:StringEquals".toList s.toList = false)
    (h3 : occursChars "ForAnyValue:StringEquals".toList s.toList = false) :
    firstStringEquals (.str s) = .ok none := by
  simp only [firstStringEquals, pyContains, h1, h2, h3]

theorem firstStringEquals_arr (xs : List JValue) :
    firstStringEquals (.arr xs) = .error .typeError ∨
    firstStringEquals (.arr xs) = .ok none := by
  simp only [firstStringEquals, pyContains]
  cases h1 : xs.any (jstrEq "StringEquals") with
  | true => exact Or.inl rfl
  | false =>
    cases h2 : xs.any (jstrEq "ForAllValues:StringEquals") with
    | true => exact Or.inl rfl
    | false =>
      cases h3 : xs.any (jstrEq "ForAnyValue:StringEquals") with
      | true => exact Or.inl rfl
      | false => exact Or.inr rfl

theorem firstStringEquals_arr_none {xs : List JValue}
    (h1 : xs.any (jstrEq "StringEquals") = false)
    (h2 : xs.any (jstrEq "ForAllValues:StringEquals") = false)
    (h3 : xs.any (jstrEq "ForAnyValue:StringEquals") = false) :
    firstStringEquals (.arr xs) = .ok none := by
  simp only [firstStringEquals, pyContains, h1, h2, h3]

theorem conditionShapeOk_check {sfields : List (String × JValue)}
    (h : conditionShapeOk sfields = true) :
    ∃ b, check_for_constrained_condition sfields = .ok b := by
  cases hC : lookup sfields "Condition" with
  | none => exact ⟨false, by simp [check_for_constrained_condition, hC]⟩
  | some c =>
    cases c with
    | obj cf =>
      refine ⟨(match specFirstPresent cf with
               | some (.obj fs) => (lookup fs "aws:PrincipalOrgID").isSome
               | _ => false), ?_⟩
      simp [check_for_constrained_condition, hC, firstStringEquals_obj cf]
    | str s =>
      simp only [conditionShapeOk, hC, Bool.and_eq_true, Bool.not_eq_true'] at h
      exact ⟨false, by
        simp [check_for_constrained_condition, hC,
          firstStringEquals_str_none h.1.1 h.1.2 h.2]⟩
    | arr xs =>
      simp only [conditionShapeOk, hC, Bool.and_eq_true, Bool.not_eq_true'] at h
      exact ⟨false, by
        simp [check_for_constrained_condition, hC,
          firstStringEquals_arr_none h.1.1 h.1.2 h.2]⟩
    | null => simp [conditionShapeOk, hC] at h
    | bool b => simp [conditionShapeOk, hC] at h
    | num n => simp [conditionShapeOk, hC] at h

theorem statementShapeOk_process {st : JValue} (i : Nat)
    (h : statementShapeOk st = true) :
    ∃ r, processStatement st i = .ok r := by
  cases st with
  | obj sfields =>
    cases hp : lookup sfields "Principal" with
    | none => exact ⟨none, by simp [processStatement, hp]⟩
    | some principal =>
      cases hI : pyIter (principalBlockOf principal) with
      | error e => simp [statementShapeOk, hp, hI] at h
      | ok entries =>
        simp only [statementShapeOk, hp, hI, Bool.or_eq_true, Bool.not_eq_true'] at h
        cases hA : entries.any isStar with
        | false =>
          exact ⟨none, by
            simp [processStatement, hp, hI, scanPrincipals_no_star sfields _ _ entries 0 hA]⟩
        | true =>
          have hcond : conditionShapeOk sfields = true := by
            rcases h with h | h
            · rw [hA] at h; cases h
            · exact h
          obtain ⟨b, hb⟩ := conditionShapeOk_check hcond
          obtain ⟨j, hj⟩ := any_true_exists_firstIdx hA
          cases hr : scanPrincipals sfields (isArrVal (principalBlockOf principal))
              (if hasAWSKey principal then baseKey i ++ "/AWS" else baseKey i)
              entries 0 with
          | error e =>
            cases b with
            | true =>
              rw [scanPrincipals_constrained sfields _ _ hb entries 0] at hr; cases hr
            | false =>
              rw [scanPrincipals_star_unconstrained sfields _ _ hj hb 0] at hr; cases hr
          | ok r => exact ⟨r, by simp [processStatement, hp, hI, hr]⟩
  | null => simp [statementShapeOk] at h
  | bool b => simp [statementShapeOk] at h
  | num n => simp [statementShapeOk] at h
  | str s => simp [statementShapeOk] at h
  | arr xs => simp [statementShapeOk] at h

theorem allShapeOk_scanStatements {sts : List JValue}
    (h : sts.all statementShapeOk = true) :
    ∀ i, ∃ r, scanStatements sts i = .ok r := by
  induction sts with
  | nil => exact fun i => ⟨none, rfl⟩
  | cons st rest ih =>
    intro i
    simp only [List.all_cons, Bool.and_eq_true] at h
    obtain ⟨r₀, hr₀⟩ := statementShapeOk_process i h.1
    cases r₀ with
    | some ks => exact ⟨some ks, by simp [scanStatements, hr₀]⟩
    | none =>
      obtain ⟨r, hr⟩ := ih h.2 (i + 1)
      exact ⟨r, by simp [scanStatements, hr₀, hr]⟩

end ECRPolicyModel

namespace ECRPolicyModel

/-! ### Remaining helper theorems. -/

theorem scan_mkStatementsConf (keys₀ : List String) (sts : List JValue) :
    scan_resource_conf keys₀ (mkStatementsConf sts) =
      match scanStatements sts 0 with
      | .error e => .error e
      | .ok (some ks) => .ok (ks, .FAILED)
      | .ok none => .ok (default_evaluated_keys, .PASSED) := rfl

theorem scanPrincipals_chars (sfields : List (String × JValue)) (key : String)
    (cs : List Char)
    (hc : check_for_constrained_condition sfields = .ok false) :
    ∀ j, scanPrincipals sfields false key
        (cs.map fun c => .str (String.singleton c)) j =
      (if cs.any (fun c => c == '*') then .ok (some [key]) else .ok none) := by
  induction cs with
  | nil => intro j; rfl
  | cons c rest ih =>
    intro j
    have hstar : isStar (.str (String.singleton c)) = (c == '*') := by
      simp [isStar, singleton_beq_star]
    cases hc2 : c == '*' with
    | true => simp [scanPrincipals, hstar, hc2, hc]
    | false => simp [scanPrincipals, hstar, hc2, ih (j + 1)]

/-! ### The claims. -/

/-- Claim C1 (corrected).  For every configuration on which
`scan_resource_conf` terminates without an exception, the verdict is FAILED
if and only if the working policy document contains a statement one of whose
iterated principal entries (the characters of a bare string, the elements of
a list, the keys of a mapping) equals the literal string `"*"` while
`check_for_constrained_condition` returns false; every other normally
terminating configuration yields PASSED or UNKNOWN. -/
theorem C1_failed_iff_wildcard_violation (keys₀ : List String)
    (conf : List (String × JValue)) (p : List String × CheckResult)
    (h : scan_resource_conf keys₀ conf = .ok p) :
    (p.2 = .FAILED ↔ violationExists conf = true) ∧
    (p.2 = .PASSED ∨ p.2 = .FAILED ∨ p.2 = .UNKNOWN) := by
  obtain ⟨ks, v⟩ := p
  rcases scan_split keys₀ conf with ⟨hwd, hres | hres⟩ | ⟨doc, hwd, hres⟩
  · have hp := h.symm.trans hres
    simp only [Except.ok.injEq, Prod.mk.injEq] at hp
    obtain ⟨hks, hv⟩ := hp
    subst hv
    simp [violationExists, hwd]
  · have hp := h.symm.trans hres
    simp only [Except.ok.injEq, Prod.mk.injEq] at hp
    obtain ⟨hks, hv⟩ := hp
    subst hv
    simp [violationExists, hwd]
  · rw [hres] at h
    have hiff := scanDocument_ok h
    have hve : violationExists conf = docViolation doc := by
      simp [violationExists, hwd]
    refine ⟨?_, ?_⟩
    · rw [hve]; exact hiff.1
    · rcases hiff.2 with hh | hh
      · exact Or.inl hh
      · exact Or.inr (Or.inl hh)

/-- Claim C1, counterexample to the claim as stated.  The configuration whose
single statement has the bare-string principal `"a*"` is reported FAILED
although no principal entry in the sense of the specification (the bare
string as a one-element sequence) equals `"*"`; and a configuration whose
statement is not a mapping terminates with an exception rather than PASSED or
UNKNOWN. -/
theorem C1_counterexample :
    scan_resource_conf [] (bareStringConf "a*") =
      .ok (["Properties/RepositoryPolicyText/Statement/[0]/Principal"], .FAILED) ∧
    spec_statement_wildcard_violation (.obj [("Principal", .str "a*")]) = false ∧
    scan_resource_conf [] (confWithPolicy (.obj [("Statement", .arr [.num 7])])) =
      .error .attributeError :=
  ⟨rfl, rfl, rfl⟩

/-- Claim C1, witness: the theorem applied to a configuration with
`Principal.AWS = "*"` and no condition. -/
theorem C1_witness :
    (((["Properties/RepositoryPolicyText/Statement/[0]/Principal/AWS"] : List String),
        CheckResult.FAILED).2 = CheckResult.FAILED ↔ violationExists
        (mkStatementsConf [.obj [("Principal", .obj [("AWS", .str "*")])]]) = true) ∧
    (((["Properties/RepositoryPolicyText/Statement/[0]/Principal/AWS"] : List String),
        CheckResult.FAILED).2 = CheckResult.PASSED ∨
     ((["Properties/RepositoryPolicyText/Statement/[0]/Principal/AWS"] : List String),
        CheckResult.FAILED).2 = CheckResult.FAILED ∨
     ((["Properties/RepositoryPolicyText/Statement/[0]/Principal/AWS"] : List String),
        CheckResult.FAILED).2 = CheckResult.UNKNOWN) :=
  C1_failed_iff_wildcard_violation []
    (mkStatementsConf [.obj [("Principal", .obj [("AWS", .str "*")])]])
    (["Properties/RepositoryPolicyText/Statement/[0]/Principal/AWS"], .FAILED)
    (by rfl)

/-- Claim C2 (corrected).  On every well-shaped configuration (the working
policy document, when reached, is a mapping whose statements are mappings
with iterable principal blocks and, where a wildcard entry makes the code
consult it, a condition shape whose membership tests and lookups cannot
raise) the evaluator terminates normally with one of the three verdicts
PASSED, FAILED, UNKNOWN. -/
theorem C2_total_on_well_shaped (keys₀ : List String)
    (conf : List (String × JValue)) (h : wellShaped conf = true) :
    ∃ ks v, scan_resource_conf keys₀ conf = .ok (ks, v) ∧
      (v = .PASSED ∨ v = .FAILED ∨ v = .UNKNOWN) := by
  rcases scan_split keys₀ conf with ⟨hwd, hres | hres⟩ | ⟨doc, hwd, hres⟩
  · exact ⟨default_evaluated_keys, .PASSED, hres, Or.inl rfl⟩
  · exact ⟨default_evaluated_keys, .UNKNOWN, hres, Or.inr (Or.inr rfl)⟩
  · rw [hres]
    simp only [wellShaped, hwd] at h
    cases doc with
    | obj dfields =>
      cases hS : lookup dfields "Statement" with
      | none =>
        exact ⟨default_evaluated_keys, .PASSED, by simp [scanDocument, hS], Or.inl rfl⟩
      | some sv =>
        cases sv with
        | arr statements =>
          simp only [hS] at h
          obtain ⟨r, hr⟩ := allShapeOk_scanStatements h 0
          cases r with
          | none =>
            exact ⟨default_evaluated_keys, .PASSED,
              by simp [scanDocument, hS, hr], Or.inl rfl⟩
          | some ks =>
            exact ⟨ks, .FAILED, by simp [scanDocument, hS, hr],
              Or.inr (Or.inl rfl)⟩
        | null =>
          exact ⟨default_evaluated_keys, .PASSED, by simp [scanDocument, hS], Or.inl rfl⟩
        | bool b =>
          exact ⟨default_evaluated_keys, .PASSED, by simp [scanDocument, hS], Or.inl rfl⟩
        | num n =>
          exact ⟨default_evaluated_keys, .PASSED, by simp [scanDocument, hS], Or.inl rfl⟩
        | str s =>
          exact ⟨default_evaluated_keys, .PASSED, by simp [scanDocument, hS], Or.inl rfl⟩
        | obj fs =>
          exact ⟨default_evaluated_keys, .PASSED, by simp [scanDocument, hS], Or.inl rfl⟩
    | null => simp at h
    | bool b => simp at h
    | num n => simp at h
    | str s => simp at h
    | arr xs => simp at h

/-- Claim C2, counterexample to the claim as stated: a statement that is not
a mapping raises `AttributeError` (`statement.keys()`), and a
`RepositoryPolicyText` string that parses to a non-mapping JSON value raises
`AttributeError` (`policy_text.keys()`); neither terminates with a
verdict. -/
theorem C2_counterexample :
    scan_resource_conf [] (confWithPolicy (.obj [("Statement", .arr [.str "x"])])) =
      .error .attributeError ∧
    scan_resource_conf [] (confWithPolicy (.str "[1, 2]")) = .error .attributeError :=
  ⟨rfl, rfl⟩

/-- Claim C2, witness: the theorem applied to a well-shaped configuration. -/
theorem C2_witness :
    ∃ ks v, scan_resource_conf [] (confWithPolicy (.obj [("Statement", .arr
        [.obj [("Principal", .str "acct")]])])) = .ok (ks, v) ∧
      (v = .PASSED ∨ v = .FAILED ∨ v = .UNKNOWN) :=
  C2_total_on_well_shaped []
    (confWithPolicy (.obj [("Statement", .arr [.obj [("Principal", .str "acct")]])]))
    (by rfl)

/-- Claim C3 (confirmed).  `check_for_constrained_condition` returns true if
and only if the statement has a `Condition` mapping and the value of the
first key present among `StringEquals`, `ForAllValues:StringEquals`,
`ForAnyValue:StringEquals` — in that precedence order — is itself a mapping
containing the key `aws:PrincipalOrgID`; in particular an earlier key whose
value lacks `aws:PrincipalOrgID` hides any later key. -/
theorem C3_constrained_condition_spec_equiv (sfields : List (String × JValue)) :
    check_for_constrained_condition sfields = .ok true ↔
      spec_constrained_condition sfields = true := by
  cases hC : lookup sfields "Condition" with
  | none => simp [check_for_constrained_condition, spec_constrained_condition, hC]
  | some c =>
    cases c with
    | obj cf =>
      simp only [check_for_constrained_condition, hC, firstStringEquals_obj cf]
      cases hF : specFirstPresent cf with
      | none => simp [spec_constrained_condition, hC, hF]
      | some v =>
        cases v with
        | obj sef => simp [spec_constrained_condition, hC, hF]
        | null => simp [spec_constrained_condition, hC, hF]
        | bool b => simp [spec_constrained_condition, hC, hF]
        | num n => simp [spec_constrained_condition, hC, hF]
        | str s => simp [spec_constrained_condition, hC, hF]
        | arr xs => simp [spec_constrained_condition, hC, hF]
    | str s =>
      rcases firstStringEquals_str s with hf | hf <;>
        simp [check_for_constrained_condition, spec_constrained_condition, hC, hf]
    | arr xs =>
      rcases firstStringEquals_arr xs with hf | hf <;>
        simp [check_for_constrained_condition, spec_constrained_condition, hC, hf]
    | null =>
      simp [check_for_constrained_condition, spec_constrained_condition, hC,
        firstStringEquals, pyContains]
    | bool b =>
      simp [check_for_constrained_condition, spec_constrained_condition, hC,
        firstStringEquals, pyContains]
    | num n =>
      simp [check_for_constrained_condition, spec_constrained_condition, hC,
        firstStringEquals, pyContains]

/-- Claim C4 (corrected).  A bare-string principal block is iterated
character by character, so a single-statement configuration with bare-string
principal `s` and no condition is FAILED exactly when `s` contains the
character `*` (and the reported key carries no `/[j]/` suffix); it is PASSED
otherwise. -/
theorem C4_bare_string_characters (keys₀ : List String) (s : String) :
    scan_resource_conf keys₀ (bareStringConf s) =
      (if s.toList.any (fun c => c == '*') then
        .ok (["Properties/RepositoryPolicyText/Statement/[0]/Principal"], .FAILED)
      else .ok (default_evaluated_keys, .PASSED)) := by
  have hcheck : check_for_constrained_condition [("Principal", .str s)] =
      .ok false := rfl
  have h2 : processStatement (.obj [("Principal", .str s)]) 0 =
      scanPrincipals [("Principal", .str s)] false (baseKey 0)
        (s.toList.map fun c => .str (String.singleton c)) 0 := rfl
  rw [show bareStringConf s = mkStatementsConf [.obj [("Principal", .str s)]] from rfl,
    scan_mkStatementsConf]
  simp only [scanStatements, h2,
    scanPrincipals_chars [("Principal", .str s)] (baseKey 0) s.toList hcheck 0]
  cases hA : s.toList.any (fun c => c == '*') with
  | true => rfl
  | false => rfl

/-- Claim C4, counterexample to the claim as stated: the bare-string
principal `"ab*c"` differs from the literal `"*"` yet triggers FAILED. -/
theorem C4_counterexample :
    scan_resource_conf [] (bareStringConf "ab*c") =
      .ok (["Properties/RepositoryPolicyText/Statement/[0]/Principal"], .FAILED) ∧
    ("ab*c" : String) ≠ "*" :=
  ⟨rfl, by decide⟩

end ECRPolicyModel

namespace ECRPolicyModel

/-- Claim C5 (confirmed).  First-failure short-circuit: when every statement
before `st` is safe (processed without violation or exception) and `st`
violates with keys `ks`, the scan returns FAILED with exactly `ks` — the key
of the first violation in scan order — and the result is independent of
everything after `st`: statements beyond the first violating one are never
inspected. -/
theorem C5_first_failure_short_circuit (keys₀ : List String)
    (pre : List JValue) (st : JValue) (rest rest' : List JValue)
    (ks : List String)
    (hsafe : allSafeFrom 0 pre = true)
    (hviol : processStatement st pre.length = .ok (some ks)) :
    scan_resource_conf keys₀ (mkStatementsConf (pre ++ st :: rest)) =
      .ok (ks, .FAILED) ∧
    scan_resource_conf keys₀ (mkStatementsConf (pre ++ st :: rest)) =
      scan_resource_conf keys₀ (mkStatementsConf (pre ++ st :: rest')) := by
  have key : ∀ tail, scanStatements (pre ++ st :: tail) 0 = .ok (some ks) := by
    intro tail
    rw [scanStatements_append hsafe]
    simp [scanStatements, hviol]
  constructor
  · rw [scan_mkStatementsConf, key rest]
  · rw [scan_mkStatementsConf, scan_mkStatementsConf, key rest, key rest']

/-- Claim C5, witness: a safe first statement, a violating second statement,
and an arbitrary third statement that is dropped without changing the
result. -/
theorem C5_witness :
    scan_resource_conf [] (mkStatementsConf
      ([.obj [("Principal", .str "acct")]] ++
        (.obj [("Principal", .obj [("AWS", .str "*")])] : JValue) ::
        [.obj [("Principal", .str "*")]])) =
      .ok (["Properties/RepositoryPolicyText/Statement/[1]/Principal/AWS"],
        .FAILED) ∧
    scan_resource_conf [] (mkStatementsConf
      ([.obj [("Principal", .str "acct")]] ++
        (.obj [("Principal", .obj [("AWS", .str "*")])] : JValue) ::
        [.obj [("Principal", .str "*")]])) =
    scan_resource_conf [] (mkStatementsConf
      ([.obj [("Principal", .str "acct")]] ++
        (.obj [("Principal", .obj [("AWS", .str "*")])] : JValue) :: [])) :=
  C5_first_failure_short_circuit []
    [.obj [("Principal", .str "acct")]]
    (.obj [("Principal", .obj [("AWS", .str "*")])])
    [.obj [("Principal", .str "*")]] []
    ["Properties/RepositoryPolicyText/Statement/[1]/Principal/AWS"]
    (by rfl) (by rfl)

/-- Claim C6 (corrected).  For every configuration whose
`RepositoryPolicyText` is a non-empty string on which `json.loads` fails, the
evaluator returns UNKNOWN with the default evaluated keys (whether or not the
string matches the deferred-template-variable pattern, which only selects the
log level); the empty string is excluded because it is Python-falsy and
yields PASSED before parsing is attempted. -/
theorem C6_unparseable_string_unknown (keys₀ : List String)
    (conf : List (String × JValue)) (pfields : List (String × JValue))
    (s : String)
    (hP : lookup conf "Properties" = some (.obj pfields))
    (hR : lookup pfields "RepositoryPolicyText" = some (.str s))
    (hs : s ≠ "")
    (hparse : json_loads s = none) :
    scan_resource_conf keys₀ conf = .ok (default_evaluated_keys, .UNKNOWN) := by
  have hfp : falsy (.obj pfields) = false := by
    simp [falsy, lookup_some_not_isEmpty hR]
  have hfs : falsy (.str s) = false := by
    simp only [falsy]
    exact beq_eq_false_iff_ne.mpr hs
  simp [scan_resource_conf, hP, hfp, hR, hfs, hparse]

/-- Claim C6, counterexample to the claim as stated: the empty string fails
to parse yet yields PASSED, not UNKNOWN. -/
theorem C6_counterexample :
    scan_resource_conf [] (confWithPolicy (.str "")) =
      .ok (default_evaluated_keys, .PASSED) ∧
    json_loads "" = none :=
  ⟨rfl, rfl⟩

/-- Claim C6, witness: the theorem applied to a deferred-template-variable
string and to a plainly malformed string. -/
theorem C6_witness :
    scan_resource_conf [] (confWithPolicy (.str "$\x7bself:custom.policy\x7d")) =
      .ok (default_evaluated_keys, .UNKNOWN) ∧
    scan_resource_conf [] (confWithPolicy (.str "\x7bnot valid json")) =
      .ok (default_evaluated_keys, .UNKNOWN) :=
  ⟨C6_unparseable_string_unknown []
      (confWithPolicy (.str "$\x7bself:custom.policy\x7d"))
      [("RepositoryPolicyText", .str "$\x7bself:custom.policy\x7d")]
      "$\x7bself:custom.policy\x7d" rfl rfl (by decide) (by rfl),
   C6_unparseable_string_unknown []
      (confWithPolicy (.str "\x7bnot valid json"))
      [("RepositoryPolicyText", .str "\x7bnot valid json")]
      "\x7bnot valid json" rfl rfl (by decide) (by rfl)⟩

/-- Claim C7 (corrected).  Every configuration in which `Properties` is
absent or not a mapping, or `RepositoryPolicyText` is absent or empty
(Python-falsy), or the working policy document is a mapping with no
`Statement` key or a `Statement` value that is not a list, yields PASSED
with the default evaluated key `Properties/RepositoryPolicyText/Statement`. -/
theorem C7_trivial_pass (keys₀ : List String) (conf : List (String × JValue))
    (h : trivialPassShape conf = true) :
    scan_resource_conf keys₀ conf = .ok (default_evaluated_keys, .PASSED) := by
  cases hP : lookup conf "Properties" with
  | none => simp [scan_resource_conf, hP]
  | some properties =>
    cases hf : falsy properties with
    | true => simp [scan_resource_conf, hP, hf]
    | false =>
      cases properties with
      | obj pfields =>
        cases hR : lookup pfields "RepositoryPolicyText" with
        | none => simp [scan_resource_conf, hP, hf, hR]
        | some policy_text =>
          simp only [trivialPassShape, hP, hR] at h
          cases hft : falsy policy_text with
          | true => simp [scan_resource_conf, hP, hf, hR, hft]
          | false =>
            simp only [hft, Bool.false_or] at h
            cases policy_text with
            | str s =>
              cases hj : json_loads s with
              | none => simp [hj] at h
              | some parsed =>
                simp only [hj] at h
                cases parsed with
                | obj dfields =>
                  cases hS : lookup dfields "Statement" with
                  | none =>
                    simp [scan_resource_conf, hP, hf, hR, hft, hj, scanDocument, hS]
                  | some sv =>
                    cases sv with
                    | arr statements => simp [hS] at h
                    | null =>
                      simp [scan_resource_conf, hP, hf, hR, hft, hj, scanDocument, hS]
                    | bool b =>
                      simp [scan_resource_conf, hP, hf, hR, hft, hj, scanDocument, hS]
                    | num n =>
                      simp [scan_resource_conf, hP, hf, hR, hft, hj, scanDocument, hS]
                    | str s₁ =>
                      simp [scan_resource_conf, hP, hf, hR, hft, hj, scanDocument, hS]
                    | obj fs =>
                      simp [scan_resource_conf, hP, hf, hR, hft, hj, scanDocument, hS]
                | null => simp at h
                | bool b => simp at h
                | num n => simp at h
                | str s₁ => simp at h
                | arr xs => simp at h
            | obj dfields =>
              cases hS : lookup dfields "Statement" with
              | none => simp [scan_resource_conf, hP, hf, hR, hft, scanDocument, hS]
              | some sv =>
                cases sv with
                | arr statements => simp [hS] at h
                | null => simp [scan_resource_conf, hP, hf, hR, hft, scanDocument, hS]
                | bool b => simp [scan_resource_conf, hP, hf, hR, hft, scanDocument, hS]
                | num n => simp [scan_resource_conf, hP, hf, hR, hft, scanDocument, hS]
                | str s₁ => simp [scan_resource_conf, hP, hf, hR, hft, scanDocument, hS]
                | obj fs => simp [scan_resource_conf, hP, hf, hR, hft, scanDocument, hS]
            | null => simp at h
            | bool b => simp at h
            | num n => simp at h
            | arr xs => simp at h
      | null => simp [scan_resource_conf, hP, hf]
      | bool b => simp [scan_resource_conf, hP, hf]
      | num n => simp [scan_resource_conf, hP, hf]
      | str s => simp [scan_resource_conf, hP, hf]
      | arr xs => simp [scan_resource_conf, hP, hf]

/-- Claim C7, counterexample to the claim as stated: a structured
`RepositoryPolicyText` that is a non-empty list has no `Statement` field yet
raises `AttributeError` instead of returning PASSED. -/
theorem C7_counterexample :
    scan_resource_conf [] (confWithPolicy (.arr [.num 1])) =
      .error .attributeError :=
  rfl

/-- Claim C7, witness: the theorem applied to a mapping policy without a
`Statement` key. -/
theorem C7_witness :
    scan_resource_conf [] (confWithPolicy (.obj [("Version", .str "2008-10-17")])) =
      .ok (default_evaluated_keys, .PASSED) :=
  C7_trivial_pass [] (confWithPolicy (.obj [("Version", .str "2008-10-17")])) (by rfl)

end ECRPolicyModel

namespace ECRPolicyModel

/-- Claim C8 (confirmed).  On FAILED the single reported evaluated key is
`Properties/RepositoryPolicyText/Statement/[i]/Principal`, extended with
`/AWS` exactly when the statement's `Principal` is a mapping containing an
`AWS` key, and further extended with `/[j]/` (trailing slash included)
exactly when the scanned principal block is a genuine list, where `j` is the
index of the first wildcard entry. -/
theorem C8_failed_key_shape (keys₀ : List String)
    (conf : List (String × JValue)) (ks : List String)
    (h : scan_resource_conf keys₀ conf = .ok (ks, .FAILED)) :
    ∃ dfields statements i sfields principal entries j,
      workingDocument conf = some (.obj dfields) ∧
      lookup dfields "Statement" = some (.arr statements) ∧
      statements.get? i = some (.obj sfields) ∧
      lookup sfields "Principal" = some principal ∧
      pyIter (principalBlockOf principal) = .ok entries ∧
      firstIdx isStar entries = some j ∧
      check_for_constrained_condition sfields = .ok false ∧
      ks = [(if hasAWSKey principal then baseKey i ++ "/AWS" else baseKey i) ++
            (if isArrVal (principalBlockOf principal) then
               "/[" ++ toString j ++ "]/" else "")] := by
  rcases scan_split keys₀ conf with ⟨hwd, hres | hres⟩ | ⟨doc, hwd, hres⟩
  · have hcontra := h.symm.trans hres
    simp at hcontra
  · have hcontra := h.symm.trans hres
    simp at hcontra
  · rw [hres] at h
    obtain ⟨dfields, statements, hdoc, hS, hscan⟩ := scanDocument_failed_shape h
    subst hdoc
    obtain ⟨i, st, hget, hps⟩ := scanStatements_ok_some_exists hscan
    obtain ⟨sfields, principal, entries, j, hst, hPr, hIt, hjj, hcc, hks⟩ :=
      processStatement_some_shape hps
    subst hst
    exact ⟨dfields, statements, i, sfields, principal, entries, j, hwd, hS, hget,
      hPr, hIt, hjj, hcc, by simpa using hks⟩

/-- Claim C8, witness: the theorem applied to a statement with
`Principal.AWS = ["111111111111", "*"]` and no condition, whose reported key
ends in `/[1]/`. -/
theorem C8_witness :
    ∃ dfields statements i sfields principal entries j,
      workingDocument (mkStatementsConf
        [.obj [("Principal", .obj [("AWS", .arr [.str "111111111111", .str "*"])])]]) =
        some (.obj dfields) ∧
      lookup dfields "Statement" = some (.arr statements) ∧
      statements.get? i = some (.obj sfields) ∧
      lookup sfields "Principal" = some principal ∧
      pyIter (principalBlockOf principal) = .ok entries ∧
      firstIdx isStar entries = some j ∧
      check_for_constrained_condition sfields = .ok false ∧
      ["Properties/RepositoryPolicyText/Statement/[0]/Principal/AWS/[1]/"] =
        [(if hasAWSKey principal then baseKey i ++ "/AWS" else baseKey i) ++
         (if isArrVal (principalBlockOf principal) then
            "/[" ++ toString j ++ "]/" else "")] :=
  C8_failed_key_shape []
    (mkStatementsConf
      [.obj [("Principal", .obj [("AWS", .arr [.str "111111111111", .str "*"])])]])
    ["Properties/RepositoryPolicyText/Statement/[0]/Principal/AWS/[1]/"]
    (by rfl)

/-- Claim C9 (confirmed).  The evaluator is a pure function of the
configuration: its result (final evaluated keys and verdict) does not depend
on the `self.evaluated_keys` state left by earlier calls, and re-evaluating
the same configuration from the state produced by a first evaluation yields
the identical (keys, verdict) pair. -/
theorem C9_pure_idempotent (keys₁ keys₂ : List String)
    (conf : List (String × JValue)) :
    scan_resource_conf keys₁ conf = scan_resource_conf keys₂ conf ∧
    (∀ r, scan_resource_conf keys₁ conf = .ok r →
      scan_resource_conf r.1 conf = .ok r) :=
  ⟨rfl, fun _ h => h⟩

/-- Claim C9, witness: the theorem applied to a concrete configuration and
two different prior states. -/
theorem C9_witness :
    scan_resource_conf ["stale"] (confWithPolicy (.obj [("Statement", .str "x")])) =
      scan_resource_conf [] (confWithPolicy (.obj [("Statement", .str "x")])) ∧
    scan_resource_conf default_evaluated_keys
        (confWithPolicy (.obj [("Statement", .str "x")])) =
      .ok (default_evaluated_keys, .PASSED) :=
  ⟨(C9_pure_idempotent ["stale"] [] (confWithPolicy (.obj [("Statement", .str "x")]))).1,
   (C9_pure_idempotent ["stale"] [] (confWithPolicy (.obj [("Statement", .str "x")]))).2
     (default_evaluated_keys, .PASSED) (by rfl)⟩

/-- Claim C10 (corrected).  A configuration whose `RepositoryPolicyText` is
present, non-empty and not a string never yields UNKNOWN: the UNKNOWN verdict
arises only from the string-parse-failure branch.  (The claim's further
assertion that such inputs always resolve to PASSED or FAILED is refuted by
the counterexample, which raises instead.) -/
theorem C10_structured_never_unknown (keys₀ : List String)
    (conf : List (String × JValue)) (pfields : List (String × JValue))
    (policy_text : JValue)
    (hP : lookup conf "Properties" = some (.obj pfields))
    (hR : lookup pfields "RepositoryPolicyText" = some policy_text)
    (hft : falsy policy_text = false)
    (hstr : ∀ s, policy_text ≠ .str s)
    (ks : List String) :
    scan_resource_conf keys₀ conf ≠ .ok (ks, .UNKNOWN) := by
  have hfp : falsy (.obj pfields) = false := by
    simp [falsy, lookup_some_not_isEmpty hR]
  cases policy_text with
  | str s => exact absurd rfl (hstr s)
  | obj dfields =>
    simp only [scan_resource_conf, hP, hfp, hR, hft, Bool.false_eq_true,
      if_false]
    exact scanDocument_ne_unknown _ _ _
  | null => simp [falsy] at hft
  | bool b =>
    cases b with
    | false => simp [falsy] at hft
    | true =>
      simp only [scan_resource_conf, hP, hfp, hR, hft, Bool.false_eq_true,
        if_false]
      exact scanDocument_ne_unknown _ _ _
  | num n =>
    simp only [scan_resource_conf, hP, hfp, hR, hft, Bool.false_eq_true,
      if_false]
    exact scanDocument_ne_unknown _ _ _
  | arr xs =>
    simp only [scan_resource_conf, hP, hfp, hR, hft, Bool.false_eq_true,
      if_false]
    exact scanDocument_ne_unknown _ _ _

/-- Claim C10, counterexample to the claim as stated: a structured non-string
policy text that is not a mapping raises `AttributeError`, so structured
inputs do not always resolve to PASSED or FAILED. -/
theorem C10_counterexample :
    scan_resource_conf [] (confWithPolicy (.bool true)) = .error .attributeError :=
  rfl

/-- Claim C10, witness: the theorem applied to a structured mapping policy. -/
theorem C10_witness :
    scan_resource_conf [] (confWithPolicy (.obj [("Statement", .arr [])])) ≠
      .ok ([], .UNKNOWN) :=
  C10_structured_never_unknown []
    (confWithPolicy (.obj [("Statement", .arr [])]))
    [("RepositoryPolicyText", .obj [("Statement", .arr [])])]
    (.obj [("Statement", .arr [])]) rfl rfl rfl (fun s h => by cases h) []

end ECRPolicyModel
